import Mathlib

set_option maxHeartbeats 1000000

namespace Seamstress

/- # Shallow embedding of psychic_seamstress

Values flowing through the reactive property graph and the device worker are
machine integers (u16/u32) in the source; they are modelled as Nat here, since
none of the claims involve overflow. -/

abbrev Val := Nat
abbrev PropId := Nat
abbrev ObsId := Nat

/-- Interpreted pure functions standing in for the Rust closures
(validators FnMut(&mut T), map_from maps Fn(&U) -> T, and writers). -/
inductive Fn where
  | id : Fn
  | const (c : Val) : Fn
  | add (n : Val) : Fn
  | comp (f g : Fn) : Fn
deriving DecidableEq

def interpFn : Fn → Val → Val
  | .id, v => v
  | .const c, _ => c
  | .add n, v => v + n
  | .comp f g, v => interpFn f (interpFn g v)

/-- Interpreted two-argument maps standing in for the map_to closures
Fn(&U, T) -> U of Derived nodes: first argument is the target value,
second the local value. -/
inductive Fn2 where
  | useLocal : Fn2
  | useTarget : Fn2
  | applyToLocal (f : Fn) : Fn2
deriving DecidableEq

def interpFn2 : Fn2 → Val → Val → Val
  | .useLocal, _, l => l
  | .useTarget, t, _ => t
  | .applyToLocal f, _, l => interpFn f l

/- ## Binding graph (src/property.rs)

A Property<T> is RefCell<Box<Observable<T>>> behind an Rc; the Observable is a
Root, Linked or Derived node.  The heap maps property ids to their current
node.  Observer closures are modelled as logging observers: each carries an id,
and an invocation is recorded as an (id, argument) pair in the notification
log a call returns.  Observing through a Derived node wraps the observer in
the node's map_from (Derived::observe); the wraps field records the stack of
such wrappers, applied innermost first. -/

structure ObsEntry where
  oid : ObsId
  wraps : List Fn
deriving DecidableEq

/-- Run the map_from wrappers of an observer entry on the notified value,
innermost wrapper (head of the list) first, exactly as the nested closures
built by Derived::observe would. -/
def applyWraps (ws : List Fn) (v : Val) : Val :=
  ws.foldl (fun a f => interpFn f a) v

inductive Node where
  | root (value : Val) (validator : Fn) (observers : List ObsEntry)
  | linked (target : PropId)
  | derived (target : PropId) (map_to : Fn2) (map_from : Fn)
deriving DecidableEq

def Heap := PropId → Option Node

def heapSet (h : Heap) (p : PropId) (n : Node) : Heap :=
  fun q => if q = p then some n else h q

/-- Observable::destruct: a Root node hands over its observer list,
Linked and Derived nodes return an empty vector (property.rs lines 50-54,
82-84, 127-129). -/
def destructNode : Node → List ObsEntry
  | .root _ _ obs => obs
  | .linked _ => []
  | .derived _ _ _ => []

/-- Writers passed to Observable::write.  A Derived node's write wraps the
incoming writer in its map_from / map_to translation before forwarding it to
the target (Derived::write, property.rs lines 111-118); the throughDerived
constructor records that wrapping syntactically so it can be interpreted. -/
inductive Writer where
  | base (f : Fn)
  | throughDerived (map_to : Fn2) (map_from : Fn) (inner : Writer)
deriving DecidableEq

def interpWriter : Writer → Val → Val
  | .base f, v => interpFn f v
  | .throughDerived m2 mf inner, v => interpFn2 m2 v (interpWriter inner (interpFn mf v))

/-- Property::write / Observable::write.  Root::write (property.rs lines
37-43) applies the writer, then the validator, then notifies every observer
in registration order with the stored value; Linked::write forwards verbatim;
Derived::write forwards a translated writer.  Fuel bounds the forwarding
chain; none models a run that does not return normally (a cycle would be a
RefCell double borrow in the source). -/
def Property.write (fuel : Nat) (h : Heap) (p : PropId) (w : Writer) :
    Option (Heap × List (ObsId × Val)) :=
  match fuel with
  | 0 => none
  | fuel + 1 =>
    match h p with
    | none => none
    | some (.root v val obs) =>
      let v1 := interpFn val (interpWriter w v)
      some (heapSet h p (.root v1 val obs),
            obs.map (fun e => (e.oid, applyWraps e.wraps v1)))
    | some (.linked tgt) => Property.write fuel h tgt w
    | some (.derived tgt m2 mf) => Property.write fuel h tgt (.throughDerived m2 mf w)

/-- Property::read specialised to get() (read with a cloning reader):
Root returns the stored value, Linked forwards, Derived maps the target's
value through map_from. -/
def Property.read (fuel : Nat) (h : Heap) (p : PropId) : Option Val :=
  match fuel with
  | 0 => none
  | fuel + 1 =>
    match h p with
    | none => none
    | some (.root v _ _) => some v
    | some (.linked tgt) => Property.read fuel h tgt
    | some (.derived tgt _ mf) => (Property.read fuel h tgt).map (interpFn mf)

/-- Property::observe.  Root::observe invokes the observer once immediately
with the current value and appends it (property.rs lines 45-48); Linked
forwards; Derived wraps the observer in map_from and forwards
(property.rs lines 120-125). -/
def Property.observe (fuel : Nat) (h : Heap) (p : PropId) (e : ObsEntry) :
    Option (Heap × List (ObsId × Val)) :=
  match fuel with
  | 0 => none
  | fuel + 1 =>
    match h p with
    | none => none
    | some (.root v val obs) =>
      some (heapSet h p (.root v val (obs ++ [e])), [(e.oid, applyWraps e.wraps v)])
    | some (.linked tgt) => Property.observe fuel h tgt e
    | some (.derived tgt _ mf) =>
      Property.observe fuel h tgt { e with wraps := mf :: e.wraps }

/-- Re-registration loop shared by Property::link and Property::derive
(property.rs lines 158-161 and 170-173): each observer returned by destruct
is re-registered through self.observe in order. -/
def transplantObservers (fuel : Nat) (h : Heap) (p : PropId) :
    List ObsEntry → Option (Heap × List (ObsId × Val))
  | [] => some (h, [])
  | e :: rest =>
    match Property.observe fuel h p e with
    | none => none
    | some (h1, log1) =>
      match transplantObservers fuel h1 p rest with
      | none => none
      | some (h2, log2) => some (h2, log1 ++ log2)

/-- Property::link (property.rs lines 154-162): swap in a Linked node, then
destruct the replaced node and re-observe each returned observer through the
(now Linked) self. -/
def Property.link (fuel : Nat) (h : Heap) (p other : PropId) :
    Option (Heap × List (ObsId × Val)) :=
  match h p with
  | none => none
  | some old =>
    transplantObservers fuel (heapSet h p (.linked other)) p (destructNode old)

/-- Property::derive (property.rs lines 164-174): same as link with a Derived
replacement node. -/
def Property.derive (fuel : Nat) (h : Heap) (p other : PropId)
    (m2 : Fn2) (mf : Fn) : Option (Heap × List (ObsId × Val)) :=
  match h p with
  | none => none
  | some old =>
    transplantObservers fuel (heapSet h p (.derived other m2 mf)) p (destructNode old)

/- ## UI-side property (src/ui/property.rs)

This second, simpler Property has a value RefCell, a validator Fn(T) -> T and
a plain observer list; observers are again modelled as loggers. -/

structure UiProperty where
  value : Val
  validator : Fn
  observers : List ObsId

/-- Property::set (ui/property.rs lines 37-42): store validator(new_value),
then invoke every observer with the freshly stored value in order. -/
def UiProperty.set (p : UiProperty) (new_value : Val) : UiProperty × List (ObsId × Val) :=
  let v := interpFn p.validator new_value
  ({ p with value := v }, p.observers.map (fun oid => (oid, v)))

/- ## Re-entrancy model of a single cell (src/property.rs)

Property<T> wraps its node in a RefCell; Property::write takes the mutable
borrow for the whole duration of Root::write, including the observer loop.
This model tracks the borrow flag explicitly so that a write issued from
inside one of the same cell's observers is decided the way RefCell decides
it.  Observer closures are drawn from a small syntax sufficient for the
claims: loggers, an observer that writes the same cell, and an observer that
registers a new observer on the same cell. -/

inductive PanicKind where
  | borrowPanic
  | fuelOut
deriving DecidableEq

inductive CObs where
  | log (oid : ObsId)
  | writeSelf (w : Fn)
  | observeSelf (oid : ObsId)
deriving DecidableEq

structure CellSt where
  value : Val
  validator : Fn
  observers : List CObs
  borrowed : Bool
deriving DecidableEq

/-- Property::observe on the same cell: borrow_mut first (panicking if the
cell is already borrowed), then Root::observe calls the new observer once
with the current value and appends it. -/
def cellObserve (st : CellSt) (oid : ObsId) :
    Except PanicKind (CellSt × List (ObsId × Val)) :=
  if st.borrowed then .error .borrowPanic
  else .ok ({ st with observers := st.observers ++ [CObs.log oid] }, [(oid, st.value)])

mutual

/-- Property::write on the cell: borrow_mut (panicking on a live borrow),
then Root::write: writer, validator, observer loop, release. -/
def cellWrite (fuel : Nat) (st : CellSt) (w : Fn) :
    Except PanicKind (CellSt × List (ObsId × Val)) :=
  if st.borrowed then .error .borrowPanic
  else
    match fuel with
    | 0 => .error .fuelOut
    | fuel + 1 =>
      let v1 := interpFn st.validator (interpFn w st.value)
      match cellNotify fuel { st with value := v1, borrowed := true } st.observers with
      | .error e => .error e
      | .ok (st2, log) => .ok ({ st2 with borrowed := false }, log)
termination_by (fuel, 0, 0)

/-- Root::write's observer loop: each observer runs in turn; a panic raised
by an observer unwinds the whole write. -/
def cellNotify (fuel : Nat) (st : CellSt) (os : List CObs) :
    Except PanicKind (CellSt × List (ObsId × Val)) :=
  match os with
  | [] => .ok (st, [])
  | o :: rest =>
    match cellRunObs fuel st o with
    | .error e => .error e
    | .ok (st1, log1) =>
      match cellNotify fuel st1 rest with
      | .error e => .error e
      | .ok (st2, log2) => .ok (st2, log1 ++ log2)
termination_by (fuel, 2, os.length + 1)

/-- Run one observer closure against the cell it observes. -/
def cellRunObs (fuel : Nat) (st : CellSt) (o : CObs) :
    Except PanicKind (CellSt × List (ObsId × Val)) :=
  match o with
  | .log oid => .ok (st, [(oid, st.value)])
  | .writeSelf w => cellWrite fuel st w
  | .observeSelf oid => cellObserve st oid
termination_by (fuel, 1, 0)

end

/- ## Device worker (src/camera.rs) -/

/-- Command (camera.rs lines 18-25).  Connect additionally carries an oracle
bit recording whether Toupcam::open will succeed when the worker processes
the command. -/
inductive Command where
  | connect (uniqueId : Option String) (openOk : Bool)
  | setExposureTime (microseconds : Val)
  | setExposureGain (percents : Val)
  | setColorTemperature (kelvin : Val)
  | setTint (tint : Val)
  | snap
deriving DecidableEq

/-- Event (camera.rs lines 10-16); image payloads are not modelled. -/
inductive Event where
  | hotplug
  | connect
  | image
  | stillImage
  | disconnect
deriving DecidableEq

/-- Hardware event delivered on the open session's channel
(touptek::Event as matched in camera.rs lines 182-202). -/
inductive CamEvent where
  | image
  | stillImage
  | disconnected
  | exposure
  | unknown
deriving DecidableEq

/-- Calls made on the hardware session handle. -/
inductive HwCall where
  | setPreviewSizeIndex
  | setAutomaticExposure
  | setExposureTime (microseconds : Val)
  | setExposureGain (percents : Val)
  | setWhiteBalanceTemperature (kelvin : Val)
  | setWhiteBalanceTint (tint : Val)
  | snapIndex
  | pullImage
  | pullStillImage
deriving DecidableEq

/-- Connection state of camera_thread: idle is the outer loop (no open
session, selecting on commands and hotplug), connected is the cam.start
inner loop. -/
inductive WorkerState where
  | idle
  | connected
deriving DecidableEq

def connBool : WorkerState → Bool
  | .idle => false
  | .connected => true

/-- One ready input of the worker's multiplexed wait: a command, a hotplug
notification, or (only while a session is open) a hardware event. -/
inductive Input where
  | cmd (c : Command)
  | hotplug
  | cam (e : CamEvent)
deriving DecidableEq

/-- One iteration of camera_thread at whichever source the select woke up on
(camera.rs lines 104-213).  Returns the successor state, the outbound events
sent, and the session calls made; none marks a run that does not return
normally (a hardware event with no session to deliver it on, or the panic on
an unknown hardware event). -/
def workerStep (s : WorkerState) (i : Input) :
    Option (WorkerState × List Event × List HwCall) :=
  match s, i with
  | .idle, .hotplug => some (.idle, [.hotplug], [])
  | .idle, .cmd (.connect _ true) =>
      some (.connected, [.connect], [.setPreviewSizeIndex, .setAutomaticExposure])
  | .idle, .cmd (.connect _ false) => some (.idle, [], [])
  | .idle, .cmd (.setExposureTime _) => some (.idle, [], [])
  | .idle, .cmd (.setExposureGain _) => some (.idle, [], [])
  | .idle, .cmd (.setColorTemperature _) => some (.idle, [], [])
  | .idle, .cmd (.setTint _) => some (.idle, [], [])
  | .idle, .cmd .snap => some (.idle, [], [])
  | .idle, .cam _ => none
  | .connected, .hotplug => some (.connected, [.hotplug], [])
  | .connected, .cmd (.connect _ _) => some (.connected, [], [])
  | .connected, .cmd (.setExposureTime us) =>
      some (.connected, [], [.setExposureTime us])
  | .connected, .cmd (.setExposureGain pct) =>
      some (.connected, [], [.setExposureGain pct])
  | .connected, .cmd (.setColorTemperature k) =>
      some (.connected, [], [.setWhiteBalanceTemperature k])
  | .connected, .cmd (.setTint t) =>
      some (.connected, [], [.setWhiteBalanceTint t])
  | .connected, .cmd .snap => some (.connected, [], [.snapIndex])
  | .connected, .cam .image => some (.connected, [.image], [.pullImage])
  | .connected, .cam .stillImage => some (.connected, [.stillImage], [.pullStillImage])
  | .connected, .cam .disconnected => some (.idle, [.disconnect], [])
  | .connected, .cam .exposure => some (.connected, [], [])
  | .connected, .cam .unknown => none

/-- Run camera_thread over a finite trace of ready inputs, concatenating the
outbound events and session calls of every step. -/
def workerRun (s : WorkerState) : List Input → Option (WorkerState × List Event × List HwCall)
  | [] => some (s, [], [])
  | i :: rest =>
    match workerStep s i with
    | none => none
    | some (s1, evs1, hws1) =>
      match workerRun s1 rest with
      | none => none
      | some (s2, evs2, hws2) => some (s2, evs1 ++ evs2, hws1 ++ hws2)

/-- Session-bracketing checker over an outbound event stream: Connect only
while no session is recorded open, Image/StillImage and Disconnect only while
one is; returns the final open flag, or none on a violation. -/
def sessionBrackets (conn : Bool) : List Event → Option Bool
  | [] => some conn
  | e :: rest =>
    match e with
    | .hotplug => sessionBrackets conn rest
    | .connect => if conn then none else sessionBrackets true rest
    | .image => if conn then sessionBrackets conn rest else none
    | .stillImage => if conn then sessionBrackets conn rest else none
    | .disconnect => if conn then sessionBrackets false rest else none

/-- Parameter commands in the sense of claim C3: everything except Connect. -/
def isParamCmd : Command → Bool
  | .connect _ _ => false
  | _ => true

/-- Number of Connect events in an outbound stream. -/
def countConnect : List Event → Nat
  | [] => 0
  | .connect :: rest => countConnect rest + 1
  | _ :: rest => countConnect rest

/-- Number of session-configuration calls (cam.set_automatic_exposure, made
exactly once per successful open) in a session-call trace. -/
def countConfigure : List HwCall → Nat
  | [] => 0
  | .setAutomaticExposure :: rest => countConfigure rest + 1
  | _ :: rest => countConfigure rest

/-- Observer closures whose body re-enters the cell they observe. -/
def isOffender : CObs → Bool
  | .log _ => false
  | .writeSelf _ => true
  | .observeSelf _ => true

/- ## Channel sends (std::sync::mpsc semantics used by the sources) -/

/-- Sender::send against a channel modelled as a queue plus a flag saying
whether the Receiver is still alive: on a dropped receiver the message is
returned as an error, otherwise it is enqueued. -/
def chanSend {α : Type} (receiverAlive : Bool) (q : List α) (m : α) :
    Except Unit (List α) :=
  if receiverAlive then .ok (q ++ [m]) else .error ()

/-- One forwarding observer installed by Property::notify, with its own
channel. -/
structure Forwarder where
  alive : Bool
  map : Fn
  queue : List Val
deriving DecidableEq

/-- The closure Property::notify installs (property.rs lines 204-208):
channel.send(map(value)).unwrap_or(()) — a failed send is swallowed and the
observer still returns normally. -/
def runForwarder (f : Forwarder) (v : Val) : Except Unit Forwarder :=
  match chanSend f.alive f.queue (interpFn f.map v) with
  | .ok q => .ok { f with queue := q }
  | .error _ => .ok f

/-- A notification sweep over a list of notify-installed observers, each
forwarding onto its own channel; an observer that panicked would abort the
sweep. -/
def notifyForwarders (v : Val) : List Forwarder → Except Unit (List Forwarder)
  | [] => .ok []
  | f :: rest =>
    match runForwarder f v with
    | .error e => .error e
    | .ok f1 =>
      match notifyForwarders v rest with
      | .error e => .error e
      | .ok rest1 => .ok (f1 :: rest1)

/-- The device worker's outbound sends (camera.rs, every event_tx.send call):
send(..).unwrap() — a send error is unwrapped, i.e. the worker panics. -/
def workerEmit (receiverAlive : Bool) (q : List Event) (e : Event) :
    Except Unit (List Event) :=
  match chanSend receiverAlive q e with
  | .ok q1 => .ok q1
  | .error er => .error er

/- ## Frame post-processing (camera.rs lines 216-225) -/

/-- The constant simd::u8x16 built in set_alpha: alpha in every fourth lane. -/
def alphaMask (alpha : Nat) : List Nat :=
  [0, 0, 0, alpha, 0, 0, 0, alpha, 0, 0, 0, alpha, 0, 0, 0, alpha]

/-- One loop iteration of set_alpha: load 16 bytes at index, OR them
lane-wise with the mask, store them back. -/
def storeOr16 (rgba : List Nat) (index : Nat) (mask : List Nat) : List Nat :=
  rgba.take index ++ (List.zipWith Nat.lor ((rgba.drop index).take 16) mask
    ++ rgba.drop (index + 16))

/-- The while loop of set_alpha. -/
def setAlphaGo (rgba : List Nat) (mask : List Nat) (index : Nat) : List Nat :=
  if h : index < rgba.length then
    setAlphaGo (storeOr16 rgba index mask) mask (index + 16)
  else rgba
termination_by rgba.length - index
decreasing_by
  have hle : (storeOr16 rgba index mask).length ≤ rgba.length := by
    simp only [storeOr16, List.length_append, List.length_take, List.length_zipWith,
      List.length_drop]
    omega
  omega

/-- set_alpha (camera.rs lines 216-225). -/
def set_alpha (rgba : List Nat) (alpha : Nat) : List Nat :=
  setAlphaGo rgba (alphaMask alpha) 0

/- ## Slider (src/ui/widget.rs)

SliderState's f32 fields are modelled over the rationals; set_value only
compares and copies values, and every value the claims mention is exactly
representable in f32, so the idealisation is faithful on them. -/

structure SliderState where
  min : ℚ
  max : ℚ
  step : ℚ
  value : ℚ
deriving DecidableEq

/-- Slider::set_value (ui/widget.rs lines 204-210): clamp into [min, max],
store, and hand the stored value to the update callback (returned as the
second component). -/
def Slider.set_value (st : SliderState) (v : ℚ) : SliderState × ℚ :=
  let v1 := if v < st.min then st.min else v
  let v2 := if v1 > st.max then st.max else v1
  ({ st with value := v2 }, v2)

/- ## Camera command side (src/camera.rs lines 27-99) -/

/-- The four parameter cells of the Camera struct, as ids into the property
heap. -/
structure CameraHandles where
  exposure_time_us : PropId
  exposure_gain_pct : PropId
  color_temperature_k : PropId
  tint : PropId

/-- Camera::connect (camera.rs lines 68-78): enqueue Connect, then one
parameter command per cell carrying that cell's current value, in source
order.  The oracle bit for the eventual open travels on the Connect command;
queue is the command channel's current contents. -/
def Camera.connect (fuel : Nat) (h : Heap) (cam : CameraHandles)
    (uniqueId : Option String) (openOk : Bool) (queue : List Command) :
    Option (List Command) :=
  match Property.read fuel h cam.exposure_time_us,
        Property.read fuel h cam.exposure_gain_pct,
        Property.read fuel h cam.color_temperature_k,
        Property.read fuel h cam.tint with
  | some t, some g, some k, some ti =>
    some (queue ++ [.connect uniqueId openOk, .setExposureTime t,
                    .setExposureGain g, .setColorTemperature k, .setTint ti])
  | _, _, _, _ => none

/- # Theorems -/

/-- C1: after each write on an observable cell with validator V, the stored
value equals V applied to the written value, and every observer registered at
the time of the write is invoked exactly once with the new value, in
registration order, before the write returns.  First two conjuncts cover
Root::write of the binding graph (src/property.rs lines 37-43, through
Property::write); the last two cover Property::set of the UI-side cell
(src/ui/property.rs lines 37-42). -/
theorem c1_observable_write_contract
    (fuel : Nat) (h : Heap) (p : PropId) (v : Val) (val : Fn)
    (obs : List ObsEntry) (f : Fn) (up : UiProperty) (nv : Val)
    (hnode : h p = some (.root v val obs)) :
    (Property.write (fuel + 1) h p (.base f) =
      some (heapSet h p (.root (interpFn val (interpFn f v)) val obs),
            obs.map (fun e => (e.oid, applyWraps e.wraps (interpFn val (interpFn f v)))))) ∧
    ((∀ e ∈ obs, e.wraps = []) →
      (Property.write (fuel + 1) h p (.base f)).map Prod.snd =
        some (obs.map (fun e => (e.oid, interpFn val (interpFn f v))))) ∧
    (UiProperty.set up nv).1.value = interpFn up.validator nv ∧
    (UiProperty.set up nv).2 = up.observers.map (fun oid => (oid, interpFn up.validator nv)) := by
  have hmain : Property.write (fuel + 1) h p (.base f) =
      some (heapSet h p (.root (interpFn val (interpFn f v)) val obs),
            obs.map (fun e => (e.oid, applyWraps e.wraps (interpFn val (interpFn f v))))) := by
    simp [Property.write, hnode, interpWriter]
  refine ⟨hmain, ?_, rfl, rfl⟩
  intro hw
  rw [hmain]
  refine congrArg some ?_
  refine List.map_congr_left fun e he => ?_
  simp [applyWraps, hw e he]

/-- C1 witness: a concrete root cell with one observer, written through a
concrete writer. -/
theorem c1_witness :
    ((fun q => if q = 0 then some (Node.root 3 Fn.id [⟨1, []⟩]) else none) : Heap) 0 =
      some (.root 3 .id [⟨1, []⟩]) ∧
    (Property.write 1 (fun q => if q = 0 then some (.root 3 .id [⟨1, []⟩]) else none) 0
        (.base (.const 7)) =
      some (heapSet (fun q => if q = 0 then some (.root 3 .id [⟨1, []⟩]) else none) 0
              (.root (interpFn .id (interpFn (.const 7) 3)) .id [⟨1, []⟩]),
            [⟨1, []⟩].map
              (fun e : ObsEntry =>
                (e.oid, applyWraps e.wraps (interpFn .id (interpFn (.const 7) 3)))))) :=
  ⟨rfl, (c1_observable_write_contract 0
      (fun q => if q = 0 then some (.root 3 .id [⟨1, []⟩]) else none) 0 3 .id
      [⟨1, []⟩] (.const 7) ⟨0, .id, []⟩ 0 rfl).1⟩

/-- C3: parameter commands (including Snap) received while no session is open
are dropped by the worker: no hardware-session call, no outbound event, no
state change, and the command is consumed, so the rest of the run is exactly
the run without it (it is never replayed). -/
theorem c3_param_commands_dropped_when_idle (c : Command) (hc : isParamCmd c = true) :
    workerStep .idle (.cmd c) = some (.idle, [], []) ∧
    ∀ rest, workerRun .idle (.cmd c :: rest) = workerRun .idle rest := by
  have hstep : workerStep .idle (.cmd c) = some (.idle, [], []) := by
    cases c <;> simp_all [workerStep, isParamCmd]
  refine ⟨hstep, fun rest => ?_⟩
  simp only [workerRun, hstep]
  cases hr : workerRun .idle rest with
  | none => simp
  | some r => obtain ⟨s2, evs2, hws2⟩ := r; simp

/-- C3 witness: a concrete SetExposureTime command dropped while idle. -/
theorem c3_witness :
    isParamCmd (.setExposureTime 5) = true ∧
    workerStep .idle (.cmd (.setExposureTime 5)) = some (.idle, [], []) :=
  ⟨rfl, (c3_param_commands_dropped_when_idle (.setExposureTime 5) rfl).1⟩

/-- C6 counterexample: the claim says every send onto a dropped channel
returns normally, for the worker's outbound events as well; but camera_thread
unwraps every event_tx.send, so with the event receiver dropped the send
panics instead of returning. -/
theorem c6_counterexample :
    workerEmit false [] Event.connect = Except.error () := rfl

/-- C6 amended: an observer installed by Property::notify swallows a failed
send (unwrap_or) and later observers in the same notification still run and
deliver — the whole sweep returns normally with dead channels simply skipped;
the device worker, by contrast, unwraps its event sends and panics when the
event receiver is dropped. -/
theorem c6_send_failure_behavior (fs : List Forwarder) (v : Val)
    (q : List Event) (e : Event) :
    notifyForwarders v fs =
      .ok (fs.map (fun f =>
        { f with queue := if f.alive then f.queue ++ [interpFn f.map v] else f.queue })) ∧
    workerEmit false q e = .error () := by
  constructor
  · induction fs with
    | nil => rfl
    | cons f rest ih =>
      obtain ⟨al, mp, qu⟩ := f
      cases al <;> simp [notifyForwarders, runForwarder, chanSend, ih]
  · simp [workerEmit, chanSend]

/-- C9 counterexample: with minimum 1, maximum 2000, step 5, Slider::set_value
applied to 119 stores 119 — it is not normalized to 120 (no snapping happens
in the validation path). -/
theorem c9_counterexample :
    (Slider.set_value ⟨1, 2000, 5, 0⟩ 119).1.value = 119 ∧ (119 : ℚ) ≠ 120 := by
  constructor
  · norm_num [Slider.set_value]
  · norm_num

/-- C9 amended: Slider::set_value clamps current into [minimum, maximum]
(given minimum ≤ maximum) and performs no snapping to step multiples; the
clamped value is stored and handed to the update callback, and the other
fields are untouched.  In particular {current: 119, minimum: 1, maximum:
2000, step: 5} stores 119 unchanged, and 5000 clamps to 2000. -/
theorem c9_set_value_clamps_only (st : SliderState) (v : ℚ) (hmm : st.min ≤ st.max) :
    ((Slider.set_value st v).1.value =
       if v < st.min then st.min else if v > st.max then st.max else v) ∧
    st.min ≤ (Slider.set_value st v).1.value ∧
    (Slider.set_value st v).1.value ≤ st.max ∧
    (Slider.set_value st v).2 = (Slider.set_value st v).1.value ∧
    (Slider.set_value st v).1.min = st.min ∧
    (Slider.set_value st v).1.max = st.max ∧
    (Slider.set_value st v).1.step = st.step ∧
    (∀ c : ℚ, (Slider.set_value ⟨1, 2000, 5, c⟩ 119).1.value = 119) ∧
    (∀ c : ℚ, (Slider.set_value ⟨1, 2000, 5, c⟩ 5000).1.value = 2000) := by
  refine ⟨?_, ?_, ?_, rfl, rfl, rfl, rfl, fun c => by norm_num [Slider.set_value],
    fun c => by norm_num [Slider.set_value]⟩ <;>
    simp only [Slider.set_value] <;> split_ifs <;> first | rfl | linarith

/-- C9 witness for the amended statement, at the first concrete input of the
claim. -/
theorem c9_witness :
    (1 : ℚ) ≤ 2000 ∧
    (Slider.set_value ⟨1, 2000, 5, 0⟩ 119).1.value =
      (if (119 : ℚ) < 1 then (1 : ℚ) else if (119 : ℚ) > 2000 then 2000 else 119) :=
  ⟨by norm_num, (c9_set_value_clamps_only ⟨1, 2000, 5, 0⟩ 119 (by norm_num)).1⟩

/-- C10: Camera::connect enqueues, in this exact order, Connect followed by
SetExposureTime, SetExposureGain, SetColorTemperature and SetTint carrying
the current values of the four property cells at the time of the call
(camera.rs lines 68-78). -/
theorem c10_connect_replays_parameters
    (fuel : Nat) (h : Heap) (cam : CameraHandles) (uid : Option String)
    (ok : Bool) (q : List Command) (t g k ti : Val)
    (ht : Property.read fuel h cam.exposure_time_us = some t)
    (hg : Property.read fuel h cam.exposure_gain_pct = some g)
    (hk : Property.read fuel h cam.color_temperature_k = some k)
    (hti : Property.read fuel h cam.tint = some ti) :
    Camera.connect fuel h cam uid ok q =
      some (q ++ [.connect uid ok, .setExposureTime t, .setExposureGain g,
                  .setColorTemperature k, .setTint ti]) := by
  simp [Camera.connect, ht, hg, hk, hti]

/-- C10 witness: the four default cells of Camera::new, read and replayed by
a concrete connect call. -/
theorem c10_witness :
    Property.read 1
        (fun p => if p = 0 then some (.root 120000 .id []) else
          if p = 1 then some (.root 100 .id []) else
          if p = 2 then some (.root 6503 .id []) else
          if p = 3 then some (.root 1000 .id []) else none) 0 = some 120000 ∧
    Camera.connect 1
        (fun p => if p = 0 then some (.root 120000 .id []) else
          if p = 1 then some (.root 100 .id []) else
          if p = 2 then some (.root 6503 .id []) else
          if p = 3 then some (.root 1000 .id []) else none)
        ⟨0, 1, 2, 3⟩ none true [] =
      some [.connect none true, .setExposureTime 120000, .setExposureGain 100,
            .setColorTemperature 6503, .setTint 1000] :=
  ⟨rfl, c10_connect_replays_parameters 1 _ ⟨0, 1, 2, 3⟩ none true [] 120000 100 6503 1000
    rfl rfl rfl rfl⟩

/-- C5 counterexample: a cell with one observer that writes the same cell.
The claim says the outer write completes without failure; instead the
re-entrant Property::write finds the cell's RefCell mutably borrowed by the
in-progress notification and panics, so the outer write errors out. -/
theorem c5_counterexample :
    cellWrite 5 ⟨0, .id, [.writeSelf (.const 5)], false⟩ (.const 1) =
      .error .borrowPanic := by
  simp [cellWrite, cellNotify, cellRunObs]

theorem cellWrite_borrowed (fuel : Nat) (st : CellSt) (w : Fn)
    (hb : st.borrowed = true) :
    cellWrite fuel st w = .error .borrowPanic := by
  rw [cellWrite.eq_def]
  simp [hb]

theorem cellNotify_offender (os : List CObs) (fuel : Nat) (st : CellSt)
    (hb : st.borrowed = true) (ho : ∃ o ∈ os, isOffender o = true) :
    cellNotify fuel st os = .error .borrowPanic := by
  induction os generalizing st with
  | nil => simp at ho
  | cons o rest ih =>
    obtain ⟨o1, ho1, hoff⟩ := ho
    cases o with
    | log oid =>
      have : o1 ∈ rest := by
        rcases List.mem_cons.mp ho1 with h1 | h1
        · subst h1; simp [isOffender] at hoff
        · exact h1
      simp [cellNotify, cellRunObs, ih st hb ⟨o1, this, hoff⟩]
    | writeSelf w => simp [cellNotify, cellRunObs, cellWrite_borrowed fuel st w hb]
    | observeSelf oid => simp [cellNotify, cellRunObs, cellObserve, hb]

/-- C5 amended: a write to an observable cell performed from inside one of
that same cell's observer callbacks does not complete: the re-entrant
Property::write (or Property::observe) hits the RefCell mutable borrow that
Property::write holds for the whole in-progress notification, and panics,
unwinding the outer write as well — no deferral or sequencing after the
notification happens. -/
theorem c5_reentrant_write_panics (fuel : Nat) (st : CellSt) (w : Fn)
    (hb : st.borrowed = false)
    (ho : ∃ o ∈ st.observers, isOffender o = true) :
    cellWrite (fuel + 1) st w = .error .borrowPanic := by
  have hnotify := cellNotify_offender st.observers fuel
    { st with value := interpFn st.validator (interpFn w st.value), borrowed := true }
    rfl ho
  rw [cellWrite.eq_def]
  simp [hb, hnotify]

/-- C5 witness for the amended statement: a logger followed by a re-entrant
writer. -/
theorem c5_witness :
    (false = false ∧
      ∃ o ∈ [CObs.log 1, .writeSelf (.const 5)], isOffender o = true) ∧
    cellWrite 3 ⟨0, .id, [.log 1, .writeSelf (.const 5)], false⟩ (.const 1) =
      .error .borrowPanic :=
  ⟨⟨rfl, ⟨.writeSelf (.const 5), by simp, rfl⟩⟩,
    c5_reentrant_write_panics 2 ⟨0, .id, [.log 1, .writeSelf (.const 5)], false⟩
      (.const 1) rfl ⟨.writeSelf (.const 5), by simp, rfl⟩⟩

theorem sessionBrackets_append (b : Bool) (xs ys : List Event) :
    sessionBrackets b (xs ++ ys) =
      (sessionBrackets b xs).bind (fun b1 => sessionBrackets b1 ys) := by
  induction xs generalizing b with
  | nil => rfl
  | cons e rest ih =>
    cases e <;> cases b <;> simp [sessionBrackets, ih]

theorem countConnect_append (xs ys : List Event) :
    countConnect (xs ++ ys) = countConnect xs + countConnect ys := by
  induction xs with
  | nil => simp [countConnect]
  | cons e rest ih => cases e <;> (simp [countConnect, ih]; try omega)

theorem countConfigure_append (xs ys : List HwCall) :
    countConfigure (xs ++ ys) = countConfigure xs + countConfigure ys := by
  induction xs with
  | nil => simp [countConfigure]
  | cons c rest ih => cases c <;> (simp [countConfigure, ih]; try omega)

theorem workerStep_brackets (s s1 : WorkerState) (i : Input)
    (evs : List Event) (hws : List HwCall)
    (hstep : workerStep s i = some (s1, evs, hws)) :
    sessionBrackets (connBool s) evs = some (connBool s1) ∧
    countConnect evs = countConfigure hws := by
  cases s with
  | idle =>
    cases i with
    | cmd c =>
      cases c with
      | connect uid ok =>
        cases ok <;>
          (simp only [workerStep, Option.some.injEq, Prod.mk.injEq] at hstep
           obtain ⟨rfl, rfl, rfl⟩ := hstep
           simp [sessionBrackets, connBool, countConnect, countConfigure])
      | setExposureTime us =>
        simp only [workerStep, Option.some.injEq, Prod.mk.injEq] at hstep
        obtain ⟨rfl, rfl, rfl⟩ := hstep
        simp [sessionBrackets, connBool, countConnect, countConfigure]
      | setExposureGain pct =>
        simp only [workerStep, Option.some.injEq, Prod.mk.injEq] at hstep
        obtain ⟨rfl, rfl, rfl⟩ := hstep
        simp [sessionBrackets, connBool, countConnect, countConfigure]
      | setColorTemperature k =>
        simp only [workerStep, Option.some.injEq, Prod.mk.injEq] at hstep
        obtain ⟨rfl, rfl, rfl⟩ := hstep
        simp [sessionBrackets, connBool, countConnect, countConfigure]
      | setTint t =>
        simp only [workerStep, Option.some.injEq, Prod.mk.injEq] at hstep
        obtain ⟨rfl, rfl, rfl⟩ := hstep
        simp [sessionBrackets, connBool, countConnect, countConfigure]
      | snap =>
        simp only [workerStep, Option.some.injEq, Prod.mk.injEq] at hstep
        obtain ⟨rfl, rfl, rfl⟩ := hstep
        simp [sessionBrackets, connBool, countConnect, countConfigure]
    | hotplug =>
      simp only [workerStep, Option.some.injEq, Prod.mk.injEq] at hstep
      obtain ⟨rfl, rfl, rfl⟩ := hstep
      simp [sessionBrackets, connBool, countConnect, countConfigure]
    | cam e =>
      cases e <;> (simp only [workerStep] at hstep; exact Option.noConfusion hstep)
  | connected =>
    cases i with
    | cmd c =>
      cases c with
      | connect uid ok =>
        simp only [workerStep, Option.some.injEq, Prod.mk.injEq] at hstep
        obtain ⟨rfl, rfl, rfl⟩ := hstep
        simp [sessionBrackets, connBool, countConnect, countConfigure]
      | setExposureTime us =>
        simp only [workerStep, Option.some.injEq, Prod.mk.injEq] at hstep
        obtain ⟨rfl, rfl, rfl⟩ := hstep
        simp [sessionBrackets, connBool, countConnect, countConfigure]
      | setExposureGain pct =>
        simp only [workerStep, Option.some.injEq, Prod.mk.injEq] at hstep
        obtain ⟨rfl, rfl, rfl⟩ := hstep
        simp [sessionBrackets, connBool, countConnect, countConfigure]
      | setColorTemperature k =>
        simp only [workerStep, Option.some.injEq, Prod.mk.injEq] at hstep
        obtain ⟨rfl, rfl, rfl⟩ := hstep
        simp [sessionBrackets, connBool, countConnect, countConfigure]
      | setTint t =>
        simp only [workerStep, Option.some.injEq, Prod.mk.injEq] at hstep
        obtain ⟨rfl, rfl, rfl⟩ := hstep
        simp [sessionBrackets, connBool, countConnect, countConfigure]
      | snap =>
        simp only [workerStep, Option.some.injEq, Prod.mk.injEq] at hstep
        obtain ⟨rfl, rfl, rfl⟩ := hstep
        simp [sessionBrackets, connBool, countConnect, countConfigure]
    | hotplug =>
      simp only [workerStep, Option.some.injEq, Prod.mk.injEq] at hstep
      obtain ⟨rfl, rfl, rfl⟩ := hstep
      simp [sessionBrackets, connBool, countConnect, countConfigure]
    | cam e =>
      cases e with
      | image =>
        simp only [workerStep, Option.some.injEq, Prod.mk.injEq] at hstep
        obtain ⟨rfl, rfl, rfl⟩ := hstep
        simp [sessionBrackets, connBool, countConnect, countConfigure]
      | stillImage =>
        simp only [workerStep, Option.some.injEq, Prod.mk.injEq] at hstep
        obtain ⟨rfl, rfl, rfl⟩ := hstep
        simp [sessionBrackets, connBool, countConnect, countConfigure]
      | disconnected =>
        simp only [workerStep, Option.some.injEq, Prod.mk.injEq] at hstep
        obtain ⟨rfl, rfl, rfl⟩ := hstep
        simp [sessionBrackets, connBool, countConnect, countConfigure]
      | exposure =>
        simp only [workerStep, Option.some.injEq, Prod.mk.injEq] at hstep
        obtain ⟨rfl, rfl, rfl⟩ := hstep
        simp [sessionBrackets, connBool, countConnect, countConfigure]
      | unknown =>
        simp only [workerStep] at hstep
        exact Option.noConfusion hstep

theorem workerRun_brackets (inputs : List Input) (s s2 : WorkerState)
    (evs : List Event) (hws : List HwCall)
    (hrun : workerRun s inputs = some (s2, evs, hws)) :
    sessionBrackets (connBool s) evs = some (connBool s2) ∧
    countConnect evs = countConfigure hws := by
  induction inputs generalizing s evs hws with
  | nil =>
    simp [workerRun] at hrun
    obtain ⟨rfl, rfl, rfl⟩ := hrun
    simp [sessionBrackets, countConnect, countConfigure]
  | cons i rest ih =>
    cases h1 : workerStep s i with
    | none => rw [workerRun, h1] at hrun; exact absurd hrun (by simp)
    | some r =>
      obtain ⟨s1, evs1, hws1⟩ := r
      simp only [workerRun, h1] at hrun
      cases h2 : workerRun s1 rest with
      | none => rw [h2] at hrun; exact absurd hrun (by simp)
      | some r2 =>
        obtain ⟨s3, evs2, hws2⟩ := r2
        rw [h2] at hrun
        simp only [Option.some.injEq, Prod.mk.injEq] at hrun
        obtain ⟨rfl, rfl, rfl⟩ := hrun
        have hstep := workerStep_brackets s s1 i evs1 hws1 h1
        have hrest := ih s1 evs2 hws2 h2
        constructor
        · rw [sessionBrackets_append, hstep.1]
          simpa using hrest.1
        · rw [countConnect_append, countConfigure_append, hstep.2, hrest.2]

/-- C2: in any outbound event stream the worker can produce, sessions are
properly bracketed: a Connect is only emitted when no session is recorded
open (so exactly one Connect per successful open), every Image/StillImage
lies strictly between its session's Connect and Disconnect, and Disconnect
only closes an open session — the checker accepts the stream and its final
open flag matches the worker's final state.  The second conjunct pins
"one Connect per successful open": Connect events are in bijection with the
per-open configuration calls. -/
theorem c2_event_stream_bracketing (inputs : List Input) (s2 : WorkerState)
    (evs : List Event) (hws : List HwCall)
    (hrun : workerRun .idle inputs = some (s2, evs, hws)) :
    sessionBrackets false evs = some (connBool s2) ∧
    countConnect evs = countConfigure hws :=
  workerRun_brackets inputs .idle s2 evs hws hrun

/-- C2 witness: a run with one successful open, one frame and a disconnect. -/
theorem c2_witness :
    workerRun .idle [.cmd (.connect none true), .cam .image, .cam .disconnected] =
      some (.idle, [.connect, .image, .disconnect],
            [.setPreviewSizeIndex, .setAutomaticExposure, .pullImage]) ∧
    sessionBrackets false [.connect, .image, .disconnect] = some (connBool .idle) ∧
    countConnect [.connect, .image, .disconnect] =
      countConfigure [.setPreviewSizeIndex, .setAutomaticExposure, .pullImage] :=
  ⟨rfl, c2_event_stream_bracketing
    [.cmd (.connect none true), .cam .image, .cam .disconnected]
    .idle [.connect, .image, .disconnect]
    [.setPreviewSizeIndex, .setAutomaticExposure, .pullImage] rfl⟩

theorem heapSet_same (h : Heap) (p : PropId) (n : Node) : heapSet h p n p = some n := by
  simp [heapSet]

theorem heapSet_other (h : Heap) (p : PropId) (n : Node) (q : PropId) (hq : q ≠ p) :
    heapSet h p n q = h q := by
  simp [heapSet, hq]

theorem heapSet_heapSet (h : Heap) (p : PropId) (n1 n2 : Node) :
    heapSet (heapSet h p n1) p n2 = heapSet h p n2 := by
  funext q
  by_cases hq : q = p <;> simp [heapSet, hq]

theorem heapSet_self (h : Heap) (p : PropId) (n : Node) (hp : h p = some n) :
    heapSet h p n = h := by
  funext q
  by_cases hq : q = p
  · subst hq; simp [heapSet, hp]
  · simp [heapSet, hq]

/-- C7 counterexample: cell 2 is Derived over root 0; observer 7 is registered
on cell 2 (so it is installed, wrapped, on root 0).  Cell 2 is then re-pointed
to root 1 by link, and a write through cell 2 (now hitting root 1) produces an
empty notification log — observer 7 does not fire on writes through the
re-pointed cell's new target, contrary to the claim. -/
theorem c7_counterexample :
    (Property.observe 9
        (fun p => if p = 0 then some (.root 10 .id []) else
          if p = 1 then some (.root 20 .id []) else
          if p = 2 then some (.derived 0 .useLocal .id) else none) 2 ⟨7, []⟩).bind
      (fun r1 => (Property.link 9 r1.1 2 1).bind
        (fun r2 => (Property.write 9 r2.1 2 (.base (.const 5))).map Prod.snd)) =
      some [] := by
  rfl

/-- C7 amended: re-pointing a cell whose current node is Derived migrates no
observers at all: Derived::destruct returns an empty vector, so link and
derive install nothing on the new target and produce no notifications, and
every other cell — in particular the old target holding the previously
registered (wrapped) observers — is left unchanged.  Those observers keep
firing on the old target only. -/
theorem c7_derived_repoint_no_migration (fuel : Nat) (h : Heap)
    (p other tgt : PropId) (m2 m2' : Fn2) (mf mf' : Fn)
    (hnode : h p = some (.derived tgt m2 mf)) :
    Property.link fuel h p other = some (heapSet h p (.linked other), []) ∧
    Property.derive fuel h p other m2' mf' =
      some (heapSet h p (.derived other m2' mf'), []) ∧
    (∀ q, q ≠ p → heapSet h p (.linked other) q = h q) := by
  refine ⟨?_, ?_, fun q hq => heapSet_other h p _ q hq⟩
  · simp [Property.link, hnode, destructNode, transplantObservers]
  · simp [Property.derive, hnode, destructNode, transplantObservers]

/-- C7 witness for the amended statement, at the counterexample's heap. -/
theorem c7_witness :
    ((fun p => if p = 2 then some (Node.derived 0 .useLocal .id) else none) : Heap) 2 =
      some (.derived 0 .useLocal .id) ∧
    Property.link 9 (fun p => if p = 2 then some (.derived 0 .useLocal .id) else none) 2 1 =
      some (heapSet (fun p => if p = 2 then some (.derived 0 .useLocal .id) else none) 2
              (.linked 1), []) :=
  ⟨rfl, (c7_derived_repoint_no_migration 9
      (fun p => if p = 2 then some (.derived 0 .useLocal .id) else none)
      2 1 0 .useLocal .useLocal .id .id rfl).1⟩

theorem transplant_linked_root (fuel : Nat) (a b : PropId) (hab : a ≠ b)
    (vb : Val) (val : Fn) :
    ∀ (obsA obsB : List ObsEntry) (h : Heap),
      h a = some (.linked b) → h b = some (.root vb val obsB) →
      transplantObservers (fuel + 2) h a obsA =
        some (heapSet h b (.root vb val (obsB ++ obsA)),
              obsA.map (fun e => (e.oid, applyWraps e.wraps vb))) := by
  intro obsA
  induction obsA with
  | nil =>
    intro obsB h ha hb
    simp [transplantObservers, heapSet_self h b _ (by simpa using hb)]
  | cons e rest ih =>
    intro obsB h ha hb
    have hobs : Property.observe (fuel + 2) h a e =
        some (heapSet h b (.root vb val (obsB ++ [e])),
              [(e.oid, applyWraps e.wraps vb)]) := by
      simp [Property.observe, ha, hb]
    have hb1 : heapSet h b (.root vb val (obsB ++ [e])) b =
        some (.root vb val (obsB ++ [e])) := heapSet_same _ _ _
    have ha1 : heapSet h b (.root vb val (obsB ++ [e])) a = some (.linked b) := by
      rw [heapSet_other h b _ a hab, ha]
    have hrest := ih (obsB ++ [e]) (heapSet h b (.root vb val (obsB ++ [e]))) ha1 hb1
    simp only [transplantObservers, hobs, hrest, heapSet_heapSet, List.append_assoc,
      List.singleton_append, List.map_cons, List.cons_append, List.nil_append]

/-- C8: after cellA.link(other) for root cells with identity validators,
setting x through cellA stores x in other (so other.get() is x) and notifies
exactly the observers now held by other — other's own followed by cellA's
transplanted ones — and a write to other notifies every observer that was
registered on cellA before the link. -/
theorem c8_link_semantics (fuel : Nat) (h : Heap) (a b : PropId) (hab : a ≠ b)
    (va vb x y : Val) (obsA obsB : List ObsEntry)
    (ha : h a = some (.root va .id obsA))
    (hb : h b = some (.root vb .id obsB)) :
    ∃ h2 log0,
      Property.link (fuel + 2) h a b = some (h2, log0) ∧
      h2 a = some (.linked b) ∧
      h2 b = some (.root vb .id (obsB ++ obsA)) ∧
      (∃ h3,
        Property.write (fuel + 2) h2 a (.base (.const x)) =
          some (h3, (obsB ++ obsA).map (fun e => (e.oid, applyWraps e.wraps x))) ∧
        Property.read (fuel + 1) h3 b = some x ∧
        h3 b = some (.root x .id (obsB ++ obsA))) ∧
      (∃ log2,
        Property.write (fuel + 1) h2 b (.base (.const y)) =
          some (heapSet h2 b (.root y .id (obsB ++ obsA)), log2) ∧
        ∀ e ∈ obsA, (e.oid, applyWraps e.wraps y) ∈ log2) := by
  have hba : b ≠ a := fun hq => hab hq.symm
  set h1 : Heap := heapSet h a (.linked b) with hh1
  have h1a : h1 a = some (.linked b) := heapSet_same _ _ _
  have h1b : h1 b = some (.root vb .id obsB) := by
    rw [hh1, heapSet_other h a _ b hba, hb]
  have hlink : Property.link (fuel + 2) h a b =
      some (heapSet h1 b (.root vb .id (obsB ++ obsA)),
            obsA.map (fun e => (e.oid, applyWraps e.wraps vb))) := by
    have htr := transplant_linked_root fuel a b hab vb .id obsA obsB h1 h1a h1b
    simp only [Property.link, ha, destructNode]
    exact htr
  set h2 : Heap := heapSet h1 b (.root vb .id (obsB ++ obsA)) with hh2
  have h2a : h2 a = some (.linked b) := by
    rw [hh2, heapSet_other h1 b _ a hab, h1a]
  have h2b : h2 b = some (.root vb .id (obsB ++ obsA)) := heapSet_same _ _ _
  refine ⟨h2, _, hlink, h2a, h2b, ?_, ?_⟩
  · refine ⟨heapSet h2 b (.root x .id (obsB ++ obsA)), ?_, ?_, heapSet_same _ _ _⟩
    · simp [Property.write, h2a, h2b, interpWriter, interpFn]
    · simp [Property.read, heapSet_same]
  · refine ⟨(obsB ++ obsA).map (fun e => (e.oid, applyWraps e.wraps y)), ?_, ?_⟩
    · simp [Property.write, h2b, interpWriter, interpFn]
    · intro e he
      exact List.mem_map_of_mem _ (List.mem_append_right obsB he)

/-- C8 witness: two concrete root cells, one observer transplanted by a
concrete link. -/
theorem c8_witness :
    (0 ≠ 1 ∧
      ((fun p => if p = 0 then some (Node.root 1 .id [⟨7, []⟩]) else
        if p = 1 then some (.root 2 .id []) else none) : Heap) 0 =
          some (.root 1 .id [⟨7, []⟩]) ∧
      ((fun p => if p = 0 then some (Node.root 1 .id [⟨7, []⟩]) else
        if p = 1 then some (.root 2 .id []) else none) : Heap) 1 =
          some (.root 2 .id [])) ∧
    (∃ h2 log0,
      Property.link 2
          (fun p => if p = 0 then some (.root 1 .id [⟨7, []⟩]) else
            if p = 1 then some (.root 2 .id []) else none) 0 1 = some (h2, log0) ∧
      h2 0 = some (.linked 1) ∧
      h2 1 = some (.root 2 .id ([] ++ [⟨7, []⟩])) ∧
      (∃ h3,
        Property.write 2 h2 0 (.base (.const 5)) =
          some (h3, ([] ++ [⟨7, []⟩] : List ObsEntry).map
            (fun e => (e.oid, applyWraps e.wraps 5))) ∧
        Property.read 1 h3 1 = some 5 ∧
        h3 1 = some (.root 5 .id ([] ++ [⟨7, []⟩]))) ∧
      (∃ log2,
        Property.write 1 h2 1 (.base (.const 6)) =
          some (heapSet h2 1 (.root 6 .id ([] ++ [⟨7, []⟩])), log2) ∧
        ∀ e ∈ ([⟨7, []⟩] : List ObsEntry), (e.oid, applyWraps e.wraps 6) ∈ log2)) :=
  ⟨⟨by decide, rfl, rfl⟩,
    c8_link_semantics 0
      (fun p => if p = 0 then some (.root 1 .id [⟨7, []⟩]) else
        if p = 1 then some (.root 2 .id []) else none)
      0 1 (by decide) 1 2 5 6 [⟨7, []⟩] [] rfl rfl⟩

theorem listGet_append {α : Type} (l1 l2 : List α) (i : Nat) :
    (l1 ++ l2).get? i = if i < l1.length then l1.get? i else l2.get? (i - l1.length) := by
  induction l1 generalizing i with
  | nil => simp
  | cons x rest ih =>
    cases i with
    | zero => simp
    | succ j =>
      simp only [List.cons_append, List.get?, List.length_cons, Nat.succ_sub_succ]
      show (rest ++ l2).get? j =
        if j + 1 < rest.length + 1 then rest.get? j else l2.get? (j - rest.length)
      rw [ih j]
      by_cases hj : j < rest.length <;> simp [hj, Nat.add_lt_add_iff_right]

theorem listGet_none {α : Type} (l : List α) (i : Nat) (h : l.length ≤ i) :
    l.get? i = none := by
  induction l generalizing i with
  | nil => cases i <;> rfl
  | cons x rest ih =>
    cases i with
    | zero => simp at h
    | succ j =>
      simp only [List.get?]
      exact ih j (by simp at h; omega)

theorem listGet_lt {α : Type} (l : List α) (i : Nat) (h : i < l.length) :
    ∃ b, l.get? i = some b := by
  induction l generalizing i with
  | nil => simp at h
  | cons x rest ih =>
    cases i with
    | zero => exact ⟨x, rfl⟩
    | succ j => simpa using ih j (by simpa using h)

theorem listGet_take {α : Type} (l : List α) (n i : Nat) :
    (l.take n).get? i = if i < n then l.get? i else none := by
  induction l generalizing n i with
  | nil => cases i <;> simp
  | cons x rest ih =>
    cases n with
    | zero => simp
    | succ m =>
      cases i with
      | zero => simp
      | succ j =>
        simp only [List.take, List.get?]
        rw [ih m j]
        simp [Nat.succ_lt_succ_iff]

theorem listGet_drop {α : Type} (l : List α) (n i : Nat) :
    (l.drop n).get? i = l.get? (n + i) := by
  induction l generalizing n with
  | nil => simp
  | cons x rest ih =>
    cases n with
    | zero => simp
    | succ m =>
      show (rest.drop m).get? i = (x :: rest).get? (m + 1 + i)
      have hidx : m + 1 + i = (m + i) + 1 := by omega
      rw [hidx]
      show (rest.drop m).get? i = rest.get? (m + i)
      exact ih m

theorem listGet_zipWith (l1 l2 : List Nat) (i : Nat) :
    (List.zipWith Nat.lor l1 l2).get? i =
      (l1.get? i).bind (fun x => (l2.get? i).map (fun y => Nat.lor x y)) := by
  induction l1 generalizing l2 i with
  | nil => simp
  | cons x rest ih =>
    cases l2 with
    | nil => cases i <;> simp
    | cons y rest2 =>
      cases i with
      | zero => simp
      | succ j => simpa using ih rest2 j

theorem alphaMask_length (a : Nat) : (alphaMask a).length = 16 := rfl

theorem alphaMask_get (a j : Nat) (hj : j < 16) :
    (alphaMask a).get? j = some (if j % 4 = 3 then a else 0) := by
  interval_cases j <;> rfl

theorem storeOr16_length (rgba : List Nat) (index : Nat) (mask : List Nat)
    (hm : mask.length = 16) :
    (storeOr16 rgba index mask).length = rgba.length := by
  simp only [storeOr16, List.length_append, List.length_take, List.length_zipWith,
    List.length_drop, hm]
  omega

theorem storeOr16_get_lt (rgba : List Nat) (index : Nat) (mask : List Nat) (i : Nat)
    (hidx : index ≤ rgba.length) (hi : i < index) :
    (storeOr16 rgba index mask).get? i = rgba.get? i := by
  have htake : (rgba.take index).length = index := by
    rw [List.length_take]; exact min_eq_left hidx
  simp only [storeOr16]
  rw [listGet_append, htake, if_pos hi, listGet_take, if_pos hi]

theorem storeOr16_get_mid (rgba : List Nat) (index : Nat) (mask : List Nat) (i : Nat)
    (hm : mask.length = 16) (h16 : index + 16 ≤ rgba.length)
    (hi1 : index ≤ i) (hi2 : i < index + 16) :
    (storeOr16 rgba index mask).get? i =
      (rgba.get? i).bind (fun x => (mask.get? (i - index)).map (fun y => Nat.lor x y)) := by
  have htake : (rgba.take index).length = index := by
    rw [List.length_take]; exact min_eq_left (by omega)
  have hchunk : ((rgba.drop index).take 16).length = 16 := by
    rw [List.length_take, List.length_drop]; exact min_eq_left (by omega)
  have hzip : (List.zipWith Nat.lor ((rgba.drop index).take 16) mask).length = 16 := by
    rw [List.length_zipWith, hchunk, hm]; exact min_self 16
  simp only [storeOr16]
  rw [listGet_append, htake, if_neg (by omega), listGet_append, hzip,
    if_pos (by omega)]
  rw [listGet_zipWith, listGet_take, if_pos (by omega), listGet_drop]
  have hpos : index + (i - index) = i := by omega
  rw [hpos]

theorem storeOr16_get_ge (rgba : List Nat) (index : Nat) (mask : List Nat) (i : Nat)
    (hm : mask.length = 16) (h16 : index + 16 ≤ rgba.length) (hi : index + 16 ≤ i) :
    (storeOr16 rgba index mask).get? i = rgba.get? i := by
  have htake : (rgba.take index).length = index := by
    rw [List.length_take]; exact min_eq_left (by omega)
  have hchunk : ((rgba.drop index).take 16).length = 16 := by
    rw [List.length_take, List.length_drop]; exact min_eq_left (by omega)
  have hzip : (List.zipWith Nat.lor ((rgba.drop index).take 16) mask).length = 16 := by
    rw [List.length_zipWith, hchunk, hm]; exact min_self 16
  simp only [storeOr16]
  rw [listGet_append, htake, if_neg (by omega), listGet_append, hzip,
    if_neg (by omega)]
  rw [listGet_drop]
  congr 1
  omega

theorem setAlphaGo_length (mask : List Nat) (hm : mask.length = 16) :
    ∀ (n : Nat) (rgba : List Nat) (index : Nat), rgba.length - index ≤ n →
      (setAlphaGo rgba mask index).length = rgba.length := by
  intro n
  induction n with
  | zero =>
    intro rgba index hle
    rw [setAlphaGo, dif_neg (by omega)]
  | succ m ih =>
    intro rgba index hle
    rw [setAlphaGo]
    by_cases hlt : index < rgba.length
    · rw [dif_pos hlt]
      have hsl : (storeOr16 rgba index mask).length = rgba.length :=
        storeOr16_length _ _ _ hm
      rw [ih (storeOr16 rgba index mask) (index + 16) (by omega)]
      exact hsl
    · rw [dif_neg hlt]

theorem setAlphaGo_get (a : Nat) :
    ∀ (n : Nat) (rgba : List Nat) (index : Nat), rgba.length - index ≤ n →
      rgba.length % 16 = 0 → index % 16 = 0 →
      ∀ i, (setAlphaGo rgba (alphaMask a) index).get? i =
        if i < index then rgba.get? i
        else (rgba.get? i).map (fun b => Nat.lor b (if i % 4 = 3 then a else 0)) := by
  intro n
  induction n with
  | zero =>
    intro rgba index hle hlen hidx i
    rw [setAlphaGo, dif_neg (by omega)]
    by_cases hi : i < index
    · rw [if_pos hi]
    · rw [if_neg hi, listGet_none _ _ (by omega)]
      rfl
  | succ m ih =>
    intro rgba index hle hlen hidx i
    rw [setAlphaGo]
    by_cases hlt : index < rgba.length
    · rw [dif_pos hlt]
      have h16 : index + 16 ≤ rgba.length := by omega
      have hsl : (storeOr16 rgba index (alphaMask a)).length = rgba.length :=
        storeOr16_length _ _ _ (alphaMask_length a)
      rw [ih (storeOr16 rgba index (alphaMask a)) (index + 16) (by omega)
          (by omega) (by omega) i]
      by_cases hi1 : i < index
      · rw [if_pos (show i < index + 16 by omega), if_pos hi1]
        exact storeOr16_get_lt _ _ _ _ (by omega) hi1
      · rw [if_neg hi1]
        by_cases hi2 : i < index + 16
        · rw [if_pos hi2,
            storeOr16_get_mid _ _ _ _ (alphaMask_length a) h16 (by omega) hi2,
            alphaMask_get a _ (by omega)]
          have hmod : (i - index) % 4 = i % 4 := by omega
          rw [hmod]
          cases rgba.get? i <;> rfl
        · rw [if_neg hi2,
            storeOr16_get_ge _ _ _ _ (alphaMask_length a) h16 (by omega)]
    · rw [dif_neg hlt]
      by_cases hi : i < index
      · rw [if_pos hi]
      · rw [if_neg hi, listGet_none _ _ (by omega)]
        rfl

theorem set_alpha_length (a : Nat) (rgba : List Nat) :
    (set_alpha rgba a).length = rgba.length :=
  setAlphaGo_length _ (alphaMask_length a) rgba.length rgba 0 (by omega)

theorem set_alpha_get (a : Nat) (rgba : List Nat) (hlen : rgba.length % 16 = 0)
    (i : Nat) :
    (set_alpha rgba a).get? i =
      (rgba.get? i).map (fun b => Nat.lor b (if i % 4 = 3 then a else 0)) := by
  have h := setAlphaGo_get a rgba.length rgba 0 (by omega) hlen (by omega) i
  simp only [set_alpha]
  rw [h, if_neg (by omega)]

set_option maxRecDepth 4000 in
theorem lor255 : ∀ b < 256, Nat.lor b 255 = 255 := by decide

/-- C4: for a buffer whose length is a multiple of 16, set_alpha with alpha
255 leaves the length unchanged, forces every byte at index 4k+3 to 255,
leaves every other byte untouched, and is idempotent. -/
theorem c4_set_alpha_contract (rgba : List Nat)
    (h16 : rgba.length % 16 = 0) (hu8 : ∀ b ∈ rgba, b < 256) :
    (set_alpha rgba 255).length = rgba.length ∧
    (∀ i, i % 4 = 3 → i < rgba.length → (set_alpha rgba 255).get? i = some 255) ∧
    (∀ i, i % 4 ≠ 3 → (set_alpha rgba 255).get? i = rgba.get? i) ∧
    set_alpha (set_alpha rgba 255) 255 = set_alpha rgba 255 := by
  have h16b : (set_alpha rgba 255).length % 16 = 0 := by
    rw [set_alpha_length]; exact h16
  refine ⟨set_alpha_length 255 rgba, ?_, ?_, ?_⟩
  · intro i hi4 hilen
    obtain ⟨b, hb⟩ := listGet_lt rgba i hilen
    have hbm : b ∈ rgba := List.get?_mem hb
    rw [set_alpha_get 255 rgba h16 i, hb]
    simp only [Option.map_some', if_pos hi4]
    rw [lor255 b (hu8 b hbm)]
  · intro i hi4
    rw [set_alpha_get 255 rgba h16 i, if_neg hi4]
    cases rgba.get? i with
    | none => rfl
    | some b =>
      simp only [Option.map_some']
      show some (b ||| 0) = some b
      rw [Nat.or_zero]
  · apply List.ext_get?
    intro i
    rw [set_alpha_get 255 _ h16b i, set_alpha_get 255 rgba h16 i]
    cases rgba.get? i with
    | none => rfl
    | some b =>
      by_cases hi4 : i % 4 = 3
      · simp only [hi4, Option.map_some']
        show some ((b ||| 255) ||| 255) = some (b ||| 255)
        rw [Nat.or_assoc, Nat.or_self]
      · simp only [hi4, if_false, Option.map_some', ite_false]
        show some ((b ||| 0) ||| 0) = some (b ||| 0)
        rw [Nat.or_zero]

/-- C4 witness: a concrete 16-byte buffer. -/
theorem c4_witness :
    ((List.range 16).length % 16 = 0 ∧ ∀ b ∈ List.range 16, b < 256) ∧
    ((set_alpha (List.range 16) 255).length = (List.range 16).length ∧
      (∀ i, i % 4 = 3 → i < (List.range 16).length →
        (set_alpha (List.range 16) 255).get? i = some 255) ∧
      (∀ i, i % 4 ≠ 3 → (set_alpha (List.range 16) 255).get? i = (List.range 16).get? i) ∧
      set_alpha (set_alpha (List.range 16) 255) 255 = set_alpha (List.range 16) 255) :=
  ⟨⟨by decide, by decide⟩,
    c4_set_alpha_contract (List.range 16) (by decide) (by decide)⟩

end Seamstress
